import Mathlib

/-!
Verification of the real-time subtitle injector
(`auto_subtitle_injector_full.py`).

The development shallowly embeds the parts of the program the claims are
about:

* the per-iteration body of `realtime_subtitle_worker` (capture →
  transcribe → translate → emit cue → preview trigger → cleanup →
  sequence-counter advance), as a step function on an explicit worker
  state, driven by a list of per-iteration external inputs;
* the session registry (`active_tasks`, `processing_status`) and the
  `stop_streaming` / `get_status` / `start_streaming` route handlers;
* the cue formatters `format_time` (VTT timestamps) and
  `create_ass_subtitle` (ASS dialogue lines), with Python floats modelled
  as rationals and `%f`-style formatting modelled as
  round-to-nearest at the printed precision.

External effects (ffmpeg exit codes, file sizes, Whisper / translator
results, wall-clock readings) are inputs to the model; exceptions raised
by the transcription call are modelled explicitly because the control
flow of the loop depends on them.
-/

/-- One timed subtitle cue: the `{start, end, text}` record appended to
`subtitle_cache[task_id]`, and equally the argument triple passed to
`create_vtt_cue` / `create_ass_subtitle` (lines 285-305). `endTime`
stands for the Python key `end`, which is a reserved word in Lean. -/
structure Cue where
  start : ℚ
  endTime : ℚ
  text : String
deriving DecidableEq

/-- Python `str.strip()` on the character list: drop leading and trailing
whitespace (the program only ever strips Whisper output, which is ASCII
whitespace at the edges). -/
def stripChars (l : List Char) : List Char :=
  ((l.dropWhile Char.isWhitespace).reverse.dropWhile Char.isWhitespace).reverse

/-- Python `str.strip()` lifted to `String`, used for
`result.get('text', '').strip()` at line 275. -/
def pyStrip (s : String) : String :=
  ⟨stripChars s.data⟩

/-- Worker configuration: the `target_lang` argument of
`realtime_subtitle_worker`. A translator is constructed iff it differs
from the sentinel `"original"` (lines 241-243). -/
structure WorkerCfg where
  targetLang : String
deriving DecidableEq

/-- `segment_duration = 5` (line 251). -/
def segmentDuration : ℚ := 5

/-- The external inputs consumed by one iteration of the worker loop:
the wall-clock stream offset read at the top of the iteration (line 255),
the capture subprocess result (line 266), whether `os.path.exists` /
`os.path.getsize` see a usable artifact (line 268), the transcription
outcome (line 274; `transcribeRaises` models `model.transcribe` raising),
the translation outcome (lines 280-282), and whether the one-shot preview
render returns a file name (line 308). -/
structure IterEnv where
  streamTime : ℚ
  captureRc : Int
  clipExists : Bool
  clipSize : Nat
  transcribeRaises : Bool
  transcribedText : String
  translateRaises : Bool
  translatedText : String
  previewOk : Bool
deriving DecidableEq

/-- The guard of line 268:
`rc == 0 and os.path.exists(clip_file) and os.path.getsize(clip_file) > 1000`. -/
def captureOk (e : IterEnv) : Bool :=
  e.captureRc == 0 && e.clipExists && decide (1000 < e.clipSize)

/-- Observable events of one loop iteration: the value of `seq` when the
iteration began, the cue emitted (if any), whether a clip artifact
existed on disk for this iteration, whether `os.remove(clip_file)`
(line 313) was invoked on it, and whether the preview renderer
(line 308) was invoked. -/
structure IterTrace where
  seqBefore : Nat
  cueEmitted : Option Cue
  clipCreated : Bool
  clipRemoved : Bool
  previewTriggered : Bool
deriving DecidableEq

/-- The worker-owned mutable state: `seq` (line 239), the
`preview_ready` / `preview_file` status fields, the argument triples
appended to the VTT document (line 288-290) and to the ASS document
(lines 292-294), `subtitle_cache[task_id]` (lines 303-305), the
`last_subtitle` / `current_segment` status fields (lines 300-301), and a
count of how many times the preview renderer has been invoked. -/
structure WorkerState where
  seq : Nat
  previewReady : Bool
  previewFile : Option String
  vttDoc : List Cue
  assDoc : List Cue
  cache : List Cue
  lastSubtitle : String
  currentSegment : Nat
  previewCalls : Nat
deriving DecidableEq

/-- State at worker start: `seq = 0`, empty documents and cache, the
status dict initialised with `preview_ready = False`,
`current_segment = 0`, `last_subtitle = ''` (lines 226-239). -/
def initWorkerState : WorkerState :=
  ⟨0, false, none, [], [], [], "", 0, 0⟩

/-- `final_text` of lines 278-282: the stripped transcription, passed
through the translator when one was constructed, falling back to the
original text when `translator.translate` raises (the bare
`except: pass`). -/
def finalTextOf (cfg : WorkerCfg) (e : IterEnv) : String :=
  if cfg.targetLang ≠ "original" then
    if e.translateRaises = true then pyStrip e.transcribedText else e.translatedText
  else pyStrip e.transcribedText

/-- The emitting branch of the loop body (lines 278-311 followed by
313-316): append the cue to both documents and the cache, update the
status fields, trigger the preview renderer iff
`not preview_ready and seq == 3` (line 307, marking it ready only when
the render returns a file), remove the clip, and advance `seq`. -/
def stepEmit (cfg : WorkerCfg) (s : WorkerState) (e : IterEnv) : WorkerState × IterTrace :=
  ({ seq := s.seq + 1
     previewReady := if (!s.previewReady && s.seq == 3) && e.previewOk then true else s.previewReady
     previewFile := if (!s.previewReady && s.seq == 3) && e.previewOk then some "preview" else s.previewFile
     vttDoc := s.vttDoc ++ [⟨e.streamTime, e.streamTime + segmentDuration, finalTextOf cfg e⟩]
     assDoc := s.assDoc ++ [⟨e.streamTime, e.streamTime + segmentDuration, finalTextOf cfg e⟩]
     cache := s.cache ++ [⟨e.streamTime, e.streamTime + segmentDuration, finalTextOf cfg e⟩]
     lastSubtitle :=
       if cfg.targetLang ≠ "original" then
         finalTextOf cfg e ++ " (" ++ pyStrip e.transcribedText ++ ")"
       else finalTextOf cfg e
     currentSegment := s.seq
     previewCalls := if !s.previewReady && s.seq == 3 then s.previewCalls + 1 else s.previewCalls },
   ⟨s.seq, some ⟨e.streamTime, e.streamTime + segmentDuration, finalTextOf cfg e⟩,
    e.clipExists, true, !s.previewReady && s.seq == 3⟩)

/-- One iteration of the `while task_id in active_tasks` loop
(lines 253-324). Control flow mirrors the source: a failed or undersized
capture skips straight to `seq += 1`; a raising `model.transcribe` jumps
to the outer `except` handler (line 322), skipping both the cleanup at
line 313 and the `seq += 1` at line 316; empty/whitespace-only
transcription skips cue emission but still removes the clip and
advances `seq`. -/
def stepWorker (cfg : WorkerCfg) (s : WorkerState) (e : IterEnv) : WorkerState × IterTrace :=
  if captureOk e = true then
    if e.transcribeRaises = true then
      (s, ⟨s.seq, none, e.clipExists, false, false⟩)
    else if pyStrip e.transcribedText ≠ "" then
      stepEmit cfg s e
    else
      ({ s with seq := s.seq + 1 }, ⟨s.seq, none, e.clipExists, true, false⟩)
  else
    ({ s with seq := s.seq + 1 }, ⟨s.seq, none, e.clipExists, false, false⟩)

/-- Run the worker loop over a finite list of per-iteration inputs (the
iterations executed before the liveness flag is cleared), returning the
final state and the per-iteration traces. -/
def runWorker (cfg : WorkerCfg) : WorkerState → List IterEnv → WorkerState × List IterTrace
  | s, [] => (s, [])
  | s, e :: rest =>
      ((runWorker cfg (stepWorker cfg s e).1 rest).1,
       (stepWorker cfg s e).2 :: (runWorker cfg (stepWorker cfg s e).1 rest).2)

theorem stepWorker_docs (cfg : WorkerCfg) (s : WorkerState) (e : IterEnv) :
    ((stepWorker cfg s e).1.cache = s.cache ∧ (stepWorker cfg s e).1.vttDoc = s.vttDoc ∧
      (stepWorker cfg s e).1.assDoc = s.assDoc) ∨
    (∃ txt, (stepWorker cfg s e).1.cache
          = s.cache ++ [⟨e.streamTime, e.streamTime + segmentDuration, txt⟩] ∧
        (stepWorker cfg s e).1.vttDoc
          = s.vttDoc ++ [⟨e.streamTime, e.streamTime + segmentDuration, txt⟩] ∧
        (stepWorker cfg s e).1.assDoc
          = s.assDoc ++ [⟨e.streamTime, e.streamTime + segmentDuration, txt⟩]) := by
  unfold stepWorker
  split
  · split
    · exact Or.inl ⟨rfl, rfl, rfl⟩
    · split
      · exact Or.inr ⟨finalTextOf cfg e, by simp [stepEmit], by simp [stepEmit], by simp [stepEmit]⟩
      · exact Or.inl ⟨rfl, rfl, rfl⟩
  · exact Or.inl ⟨rfl, rfl, rfl⟩

theorem runWorker_cache_spec (cfg : WorkerCfg) (envs : List IterEnv) :
    ∀ s : WorkerState,
      ∃ tail, (runWorker cfg s envs).1.cache = s.cache ++ tail ∧
        (∀ c ∈ tail, c.endTime = c.start + segmentDuration) ∧
        List.Sublist (tail.map Cue.start) (envs.map IterEnv.streamTime) := by
  induction envs with
  | nil =>
      intro s
      exact ⟨[], by simp [runWorker], by simp, by simp⟩
  | cons e rest ih =>
      intro s
      obtain ⟨tail, h1, h2, h3⟩ := ih (stepWorker cfg s e).1
      rcases stepWorker_docs cfg s e with ⟨hc, -, -⟩ | ⟨txt, hc, -, -⟩
      · refine ⟨tail, ?_, h2, ?_⟩
        · simpa [runWorker, hc] using h1
        · exact h3.trans (List.sublist_cons_self _ _)
      · refine ⟨⟨e.streamTime, e.streamTime + segmentDuration, txt⟩ :: tail, ?_, ?_, ?_⟩
        · simp only [runWorker]
          rw [h1, hc, List.append_assoc]
          rfl
        · intro c hcmem
          rcases List.mem_cons.mp hcmem with h | h
          · rw [h]
          · exact h2 c h
        · simpa using h3.cons₂ e.streamTime

theorem runWorker_docs_eq (cfg : WorkerCfg) (envs : List IterEnv) :
    ∀ s : WorkerState, s.vttDoc = s.cache → s.assDoc = s.cache →
      (runWorker cfg s envs).1.vttDoc = (runWorker cfg s envs).1.cache ∧
      (runWorker cfg s envs).1.assDoc = (runWorker cfg s envs).1.cache := by
  induction envs with
  | nil =>
      intro s h1 h2
      exact ⟨by simpa [runWorker] using h1, by simpa [runWorker] using h2⟩
  | cons e rest ih =>
      intro s h1 h2
      rcases stepWorker_docs cfg s e with ⟨hc, hv, ha⟩ | ⟨txt, hc, hv, ha⟩
      · have := ih (stepWorker cfg s e).1 (by rw [hv, hc, h1]) (by rw [ha, hc, h2])
        simpa [runWorker] using this
      · have := ih (stepWorker cfg s e).1 (by rw [hv, hc, h1]) (by rw [ha, hc, h2])
        simpa [runWorker] using this

/-- C1: within one session every emitted cue satisfies
`end = start + segmentDuration > start`; the cues appended to the
in-memory cache (which coincides entry-by-entry with the two subtitle
documents) have non-decreasing start offsets whenever the wall-clock
stream offsets observed by successive iterations are non-decreasing; and
a single loop iteration appends at most one cue. -/
theorem claim1_cue_order (cfg : WorkerCfg) (envs : List IterEnv)
    (hclock : (envs.map IterEnv.streamTime).Pairwise (· ≤ ·)) :
    (∀ c ∈ (runWorker cfg initWorkerState envs).1.cache, c.start < c.endTime) ∧
    List.Chain' (fun a b => a.start ≤ b.start) (runWorker cfg initWorkerState envs).1.cache ∧
    (runWorker cfg initWorkerState envs).1.vttDoc = (runWorker cfg initWorkerState envs).1.cache ∧
    (runWorker cfg initWorkerState envs).1.assDoc = (runWorker cfg initWorkerState envs).1.cache ∧
    (∀ (s : WorkerState) (e : IterEnv),
      (stepWorker cfg s e).1.cache.length ≤ s.cache.length + 1) := by
  obtain ⟨tail, h1, h2, h3⟩ := runWorker_cache_spec cfg envs initWorkerState
  have hcache : (runWorker cfg initWorkerState envs).1.cache = tail := by
    simpa [initWorkerState] using h1
  obtain ⟨hv, ha⟩ := runWorker_docs_eq cfg envs initWorkerState rfl rfl
  refine ⟨?_, ?_, hv, ha, ?_⟩
  · intro c hc
    rw [hcache] at hc
    rw [h2 c hc]
    have hpos : (0 : ℚ) < segmentDuration := by norm_num [segmentDuration]
    linarith
  · rw [hcache]
    have hp : (tail.map Cue.start).Pairwise (· ≤ ·) := hclock.sublist h3
    exact (List.pairwise_map.mp hp).chain'
  · intro s e
    rcases stepWorker_docs cfg s e with ⟨hc, -, -⟩ | ⟨txt, hc, -, -⟩ <;> simp [hc]

/-- Concrete iteration input whose capture and transcription succeed. -/
def envSpeech (t : ℚ) : IterEnv :=
  { streamTime := t, captureRc := 0, clipExists := true, clipSize := 2000,
    transcribeRaises := false, transcribedText := " hello ", translateRaises := false,
    translatedText := "halo", previewOk := true }

/-- C1 witness: a concrete two-iteration run with non-decreasing stream
offsets, instantiating `claim1_cue_order`. -/
theorem claim1_witness :
    (([envSpeech 0, envSpeech 6].map IterEnv.streamTime).Pairwise (· ≤ ·)) ∧
    ((∀ c ∈ (runWorker ⟨"id"⟩ initWorkerState [envSpeech 0, envSpeech 6]).1.cache,
        c.start < c.endTime) ∧
      List.Chain' (fun a b => a.start ≤ b.start)
        (runWorker ⟨"id"⟩ initWorkerState [envSpeech 0, envSpeech 6]).1.cache ∧
      (runWorker ⟨"id"⟩ initWorkerState [envSpeech 0, envSpeech 6]).1.vttDoc
        = (runWorker ⟨"id"⟩ initWorkerState [envSpeech 0, envSpeech 6]).1.cache ∧
      (runWorker ⟨"id"⟩ initWorkerState [envSpeech 0, envSpeech 6]).1.assDoc
        = (runWorker ⟨"id"⟩ initWorkerState [envSpeech 0, envSpeech 6]).1.cache ∧
      (∀ (s : WorkerState) (e : IterEnv),
        (stepWorker ⟨"id"⟩ s e).1.cache.length ≤ s.cache.length + 1)) :=
  ⟨by decide, claim1_cue_order ⟨"id"⟩ [envSpeech 0, envSpeech 6] (by decide)⟩

/-- Concrete iteration input whose transcription comes back as whitespace
only (an empty segment): no cue is emitted. -/
def envSilent (t : ℚ) : IterEnv :=
  { streamTime := t, captureRc := 0, clipExists := true, clipSize := 2000,
    transcribeRaises := false, transcribedText := "   ", translateRaises := false,
    translatedText := "", previewOk := true }

/-- C2 counterexample: in a session whose first three iterations
transcribe to whitespace (no cue emitted) and whose fourth iteration
yields the session's very first successful cue, the code still invokes
the preview renderer (because it tests the raw counter `seq == 3`,
line 307) — so the preview fires on the 1st successful cue, not the 4th,
refuting the claim that the trigger counts successful cues. -/
theorem claim2_counterexample :
    (runWorker ⟨"en"⟩ initWorkerState
        [envSilent 0, envSilent 5, envSilent 10, envSpeech 15]).1.previewCalls = 1 ∧
    (runWorker ⟨"en"⟩ initWorkerState
        [envSilent 0, envSilent 5, envSilent 10, envSpeech 15]).1.cache.length = 1 := by
  decide

/-- Invariant backing the amended C2: the preview renderer has been
invoked at most once, and once it has been invoked the raw sequence
counter has moved past 3. -/
def PreviewInv (s : WorkerState) : Prop :=
  s.previewCalls = 0 ∨ (s.previewCalls = 1 ∧ 4 ≤ s.seq)

theorem stepWorker_preview_inv (cfg : WorkerCfg) (s : WorkerState) (e : IterEnv)
    (h : PreviewInv s) :
    PreviewInv (stepWorker cfg s e).1 ∧
    ((stepWorker cfg s e).2.previewTriggered = true →
      (stepWorker cfg s e).2.seqBefore = 3 ∧ (stepWorker cfg s e).2.cueEmitted.isSome = true) := by
  unfold stepWorker
  split
  · split
    · exact ⟨h, by simp⟩
    · split
      · unfold stepEmit
        by_cases hb : (!s.previewReady && (s.seq == 3)) = true
        · have hseq : s.seq = 3 := by
            have h2 := ((Bool.and_eq_true _ _).mp hb).2
            simpa using h2
          have hzero : s.previewCalls = 0 := by
            rcases h with h0 | ⟨-, h4⟩
            · exact h0
            · omega
          refine ⟨Or.inr ⟨?_, ?_⟩, ?_⟩
          · simp [hb, hzero]
          · simp [hseq]
          · intro _
            exact ⟨hseq, rfl⟩
        · have hb' : (!s.previewReady && (s.seq == 3)) = false := by
            revert hb
            cases !s.previewReady && (s.seq == 3) <;> simp
          refine ⟨?_, ?_⟩
          · rcases h with h0 | ⟨h1, h4⟩
            · exact Or.inl (by simp [hb', h0])
            · exact Or.inr ⟨by simp [hb', h1], by simp; omega⟩
          · intro htr
            simp [hb'] at htr
      · refine ⟨?_, by simp⟩
        rcases h with h0 | ⟨h1, h4⟩
        · exact Or.inl h0
        · exact Or.inr ⟨h1, by simp; omega⟩
  · refine ⟨?_, by simp⟩
    rcases h with h0 | ⟨h1, h4⟩
    · exact Or.inl h0
    · exact Or.inr ⟨h1, by simp; omega⟩

theorem runWorker_preview_inv (cfg : WorkerCfg) (envs : List IterEnv) :
    ∀ s : WorkerState, PreviewInv s →
      PreviewInv (runWorker cfg s envs).1 ∧
      ∀ tr ∈ (runWorker cfg s envs).2, tr.previewTriggered = true →
        tr.seqBefore = 3 ∧ tr.cueEmitted.isSome = true := by
  induction envs with
  | nil =>
      intro s h
      exact ⟨by simpa [runWorker] using h, by simp [runWorker]⟩
  | cons e rest ih =>
      intro s h
      obtain ⟨h1, h2⟩ := stepWorker_preview_inv cfg s e h
      obtain ⟨h3, h4⟩ := ih (stepWorker cfg s e).1 h1
      refine ⟨by simpa [runWorker] using h3, ?_⟩
      intro tr htr
      rcases List.mem_cons.mp (by simpa [runWorker] using htr) with htr | htr
      · rw [htr]
        exact h2
      · exact h4 tr htr

/-- C2 amended: the preview renderer is invoked at most once per
session, and every invocation happens in an iteration whose raw sequence
counter (`seq`, which advances on cue-less iterations too) equals 3 and
which emits a successful cue; the trigger counts raw loop iterations,
not successful cues, so if the `seq = 3` iteration emits no cue the
preview is never rendered. -/
theorem claim2_amended_raw_counter (cfg : WorkerCfg) (envs : List IterEnv) :
    (runWorker cfg initWorkerState envs).1.previewCalls ≤ 1 ∧
    ∀ tr ∈ (runWorker cfg initWorkerState envs).2, tr.previewTriggered = true →
      tr.seqBefore = 3 ∧ tr.cueEmitted.isSome = true := by
  obtain ⟨h1, h2⟩ := runWorker_preview_inv cfg envs initWorkerState (Or.inl rfl)
  refine ⟨?_, h2⟩
  rcases h1 with h | ⟨h, -⟩ <;> omega

/-- C2 amended, witness: the amended statement instantiated at a
concrete four-iteration session. -/
theorem claim2_amended_witness :
    (runWorker ⟨"en"⟩ initWorkerState
        [envSpeech 0, envSpeech 5, envSpeech 10, envSpeech 15]).1.previewCalls ≤ 1 ∧
    ∀ tr ∈ (runWorker ⟨"en"⟩ initWorkerState
        [envSpeech 0, envSpeech 5, envSpeech 10, envSpeech 15]).2,
      tr.previewTriggered = true → tr.seqBefore = 3 ∧ tr.cueEmitted.isSome = true :=
  claim2_amended_raw_counter ⟨"en"⟩ [envSpeech 0, envSpeech 5, envSpeech 10, envSpeech 15]

/-- C3: when a real target language is requested and the translation
provider raises, the iteration still emits a cue carrying exactly the
stripped original transcription — neither dropped nor blank
(lines 278-282). -/
theorem claim3_translation_fallback (cfg : WorkerCfg) (s : WorkerState) (e : IterEnv)
    (hlang : cfg.targetLang ≠ "original") (hcap : captureOk e = true)
    (hraise : e.transcribeRaises = false) (htext : pyStrip e.transcribedText ≠ "")
    (htrans : e.translateRaises = true) :
    (stepWorker cfg s e).2.cueEmitted =
      some ⟨e.streamTime, e.streamTime + segmentDuration, pyStrip e.transcribedText⟩ ∧
    pyStrip e.transcribedText ≠ "" := by
  refine ⟨?_, htext⟩
  unfold stepWorker
  rw [if_pos hcap, if_neg (by simp [hraise]), if_pos htext]
  simp [stepEmit, finalTextOf, hlang, htrans]

/-- Concrete iteration input for the translation-failure fallback. -/
def envFallback : IterEnv :=
  { streamTime := 0, captureRc := 0, clipExists := true, clipSize := 2000,
    transcribeRaises := false, transcribedText := "hello", translateRaises := true,
    translatedText := "", previewOk := false }

/-- C3 witness: the fallback theorem instantiated at a concrete input. -/
theorem claim3_witness :
    ((WorkerCfg.mk "en").targetLang ≠ "original" ∧ captureOk envFallback = true ∧
      envFallback.transcribeRaises = false ∧ pyStrip envFallback.transcribedText ≠ "" ∧
      envFallback.translateRaises = true) ∧
    ((stepWorker ⟨"en"⟩ initWorkerState envFallback).2.cueEmitted =
        some ⟨envFallback.streamTime, envFallback.streamTime + segmentDuration,
          pyStrip envFallback.transcribedText⟩ ∧
      pyStrip envFallback.transcribedText ≠ "") :=
  ⟨⟨by decide, by decide, by decide, by decide, by decide⟩,
   claim3_translation_fallback ⟨"en"⟩ initWorkerState envFallback
     (by decide) (by decide) (by decide) (by decide) (by decide)⟩

/-- C4: an iteration whose capture fails or yields an undersized/missing
artifact, or whose transcription returns empty/whitespace-only text,
emits no cue and leaves both documents and the cache untouched, yet
still advances the sequence counter by one (line 316) — the loop model
then simply continues with the next iteration. -/
theorem claim4_skip_advances_seq (cfg : WorkerCfg) (s : WorkerState) (e : IterEnv)
    (h : captureOk e = false ∨
      (e.transcribeRaises = false ∧ pyStrip e.transcribedText = "")) :
    (stepWorker cfg s e).2.cueEmitted = none ∧
    (stepWorker cfg s e).1.vttDoc = s.vttDoc ∧
    (stepWorker cfg s e).1.assDoc = s.assDoc ∧
    (stepWorker cfg s e).1.cache = s.cache ∧
    (stepWorker cfg s e).1.seq = s.seq + 1 := by
  unfold stepWorker
  rcases h with h | ⟨h1, h2⟩
  · rw [if_neg (by simp [h])]
    exact ⟨rfl, rfl, rfl, rfl, rfl⟩
  · by_cases hcap : captureOk e = true
    · rw [if_pos hcap, if_neg (by simp [h1]), if_neg (by simp [h2])]
      exact ⟨rfl, rfl, rfl, rfl, rfl⟩
    · rw [if_neg hcap]
      exact ⟨rfl, rfl, rfl, rfl, rfl⟩

/-- C4 witness: instantiated at a whitespace-only transcription. -/
theorem claim4_witness :
    (captureOk (envSilent 0) = false ∨
      ((envSilent 0).transcribeRaises = false ∧ pyStrip (envSilent 0).transcribedText = "")) ∧
    ((stepWorker ⟨"en"⟩ initWorkerState (envSilent 0)).2.cueEmitted = none ∧
      (stepWorker ⟨"en"⟩ initWorkerState (envSilent 0)).1.vttDoc = initWorkerState.vttDoc ∧
      (stepWorker ⟨"en"⟩ initWorkerState (envSilent 0)).1.assDoc = initWorkerState.assDoc ∧
      (stepWorker ⟨"en"⟩ initWorkerState (envSilent 0)).1.cache = initWorkerState.cache ∧
      (stepWorker ⟨"en"⟩ initWorkerState (envSilent 0)).1.seq = initWorkerState.seq + 1) :=
  ⟨by decide, claim4_skip_advances_seq ⟨"en"⟩ initWorkerState (envSilent 0) (by decide)⟩

/-- Concrete iteration input whose capture succeeds but whose
transcription call raises an exception. -/
def envRaise : IterEnv :=
  { streamTime := 0, captureRc := 0, clipExists := true, clipSize := 2000,
    transcribeRaises := true, transcribedText := "hello", translateRaises := false,
    translatedText := "", previewOk := false }

/-- C5 counterexample: an iteration that created a clip artifact
(capture succeeded, file on disk) but whose `model.transcribe` call
raises completes with `os.remove` never invoked — the exception jumps to
the handler at line 322, skipping the cleanup at line 313 — so the
artifact is still on disk when the iteration completes, refuting
"regardless of whether transcription succeeded or raised an error". -/
theorem claim5_counterexample :
    (stepWorker ⟨"en"⟩ initWorkerState envRaise).2.clipCreated = true ∧
    (stepWorker ⟨"en"⟩ initWorkerState envRaise).2.clipRemoved = false := by
  decide

/-- C5 amended: the best-effort `os.remove` of the transient clip runs
exactly in the iterations whose capture check passed (exit code 0,
artifact present and larger than 1000 bytes) and whose transcription
call did not raise; on capture failure, an undersized artifact, or a
transcription exception, no deletion is attempted and the artifact may
remain on disk. -/
theorem claim5_amended_cleanup (cfg : WorkerCfg) (s : WorkerState) (e : IterEnv) :
    (stepWorker cfg s e).2.clipRemoved = (captureOk e && !e.transcribeRaises) := by
  unfold stepWorker
  by_cases h1 : captureOk e = true
  · by_cases h2 : e.transcribeRaises = true
    · rw [if_pos h1, if_pos h2]
      simp [h1, h2]
    · have h2f : e.transcribeRaises = false := by
        revert h2
        cases e.transcribeRaises <;> simp
      rw [if_pos h1, if_neg h2]
      by_cases h3 : pyStrip e.transcribedText ≠ ""
      · rw [if_pos h3]
        simp [stepEmit, h1, h2f]
      · rw [if_neg h3]
        simp [h1, h2f]
  · have h1f : captureOk e = false := by
      revert h1
      cases captureOk e <;> simp
    rw [if_neg h1]
    simp [h1f]

/-- C7: the argument triple written to the timed-text (VTT) document and
the argument triple written to the styled (ASS) document in any
iteration are identical — same start offset, same end offset, same
pre-escaping text (`sub_start`, `sub_end`, `final_text` at
lines 288-294; the ASS-side comma escaping is applied by the formatter
afterwards). -/
theorem claim7_documents_agree (cfg : WorkerCfg) (envs : List IterEnv) :
    (runWorker cfg initWorkerState envs).1.vttDoc
      = (runWorker cfg initWorkerState envs).1.assDoc := by
  obtain ⟨hv, ha⟩ := runWorker_docs_eq cfg envs initWorkerState rfl rfl
  rw [hv, ha]

/-- Status snapshot: the dict stored in `processing_status[task_id]`
(lines 226-236). -/
structure StatusSnapshot where
  status : String
  progress : Nat
  currentSegment : Nat
  lastSubtitle : String
  startTime : ℚ
  previewReady : Bool
  hlsReady : Bool
  previewFile : Option String
  hlsUrl : Option String
deriving DecidableEq

/-- The snapshot written at worker start (lines 226-236), with the
wall-clock `start_time` as a parameter. -/
def initSnapshot (t0 : ℚ) : StatusSnapshot :=
  ⟨"streaming", 0, 0, "", t0, false, false, none, none⟩

/-- Lookup in a Python dict modelled as an association list (first
matching key wins; dict keys are unique). -/
def dictGet {α : Type} : List (String × α) → String → Option α
  | [], _ => none
  | p :: rest, k => if p.1 = k then some p.2 else dictGet rest k

/-- Remove a key from an association list. -/
def keyRemove {α : Type} : List (String × α) → String → List (String × α)
  | [], _ => []
  | p :: rest, k => if p.1 = k then keyRemove rest k else p :: keyRemove rest k

/-- Python dict assignment `m[k] = v`, up to representation order. -/
def dictSet {α : Type} (m : List (String × α)) (k : String) (v : α) : List (String × α) :=
  (k, v) :: keyRemove m k

theorem dictGet_dictSet_self {α : Type} (m : List (String × α)) (k : String) (v : α) :
    dictGet (dictSet m k v) k = some v := by
  simp [dictGet, dictSet]

theorem dictGet_keyRemove {α : Type} (m : List (String × α)) (k id : String) (h : id ≠ k) :
    dictGet (keyRemove m k) id = dictGet m id := by
  induction m with
  | nil => rfl
  | cons p rest ih =>
      by_cases hp : p.1 = k
      · have hk : ¬(k = id) := fun hk => h hk.symm
        simp [keyRemove, dictGet, hp, hk, ih]
      · by_cases hid : p.1 = id
        · simp [keyRemove, dictGet, hp, hid, h]
        · simp [keyRemove, dictGet, hp, hid, ih]

theorem dictGet_dictSet_other {α : Type} (m : List (String × α)) (k id : String) (v : α)
    (h : id ≠ k) :
    dictGet (dictSet m k v) id = dictGet m id := by
  have hk : k ≠ id := fun hk => h hk.symm
  simp [dictSet, dictGet, hk, dictGet_keyRemove m k id h]

/-- The process-wide registry: the keys of `active_tasks` (its values
are just `True`), the `processing_status` snapshot map, and the keys of
`hls_processes` (lines 49-52). -/
structure Registry where
  activeTasks : List String
  processingStatus : List (String × StatusSnapshot)
  hlsTasks : List String
deriving DecidableEq

/-- The registry at process start: all three maps empty. -/
def emptyRegistry : Registry :=
  ⟨[], [], []⟩

/-- `POST /stop/{task_id}` (lines 351-355): delete the liveness key if
present, and always answer `{"status": "stopped"}`. Nothing else in the
registry is touched. -/
def stop_streaming (r : Registry) (id : String) : Registry × String :=
  (if id ∈ r.activeTasks then
     { r with activeTasks := r.activeTasks.filter (fun x => !(x == id)) }
   else r,
   "stopped")

/-- `GET /status/{task_id}` (lines 357-361): the stored snapshot if one
exists, else the benign `{"status": "not_found"}` body. -/
inductive StatusResult where
  | snapshot (s : StatusSnapshot)
  | notFound
deriving DecidableEq

def get_status (r : Registry) (id : String) : StatusResult :=
  match dictGet r.processingStatus id with
  | some snap => StatusResult.snapshot snap
  | none => StatusResult.notFound

/-- `POST /start` (lines 344-349): record the fresh task id as live and
schedule the worker; the response is `{"status": "started", ...}`. The
generated uuid is a parameter of the model. Note that `/start` itself
does not touch `processing_status`. -/
def start_streaming (r : Registry) (id : String) : Registry × String :=
  ({ r with activeTasks := if id ∈ r.activeTasks then r.activeTasks else r.activeTasks ++ [id] },
   "started")

/-- The status-snapshot initialisation performed by the background
worker once it starts (lines 210-236): if the Whisper model loads, write
the initial snapshot; if loading fails the worker returns before
creating any snapshot (lines 212-214). -/
def workerInitStatus (r : Registry) (id : String) (modelOk : Bool) (t0 : ℚ) : Registry :=
  if modelOk then
    { r with processingStatus := dictSet r.processingStatus id (initSnapshot t0) }
  else r

/-- C6: stopping is idempotent — the acknowledgement is always
`"stopped"`, a second stop of the same id acknowledges identically and
changes nothing, stopping leaves the status snapshots and renderer
handles untouched, and stopping an unknown or already-stopped id leaves
the whole registry unchanged. -/
theorem claim6_stop_idempotent (r : Registry) (id : String) :
    (stop_streaming r id).2 = "stopped" ∧
    (stop_streaming (stop_streaming r id).1 id).2 = "stopped" ∧
    (stop_streaming (stop_streaming r id).1 id).1 = (stop_streaming r id).1 ∧
    (id ∉ r.activeTasks → (stop_streaming r id).1 = r) ∧
    (stop_streaming r id).1.processingStatus = r.processingStatus ∧
    (stop_streaming r id).1.hlsTasks = r.hlsTasks := by
  refine ⟨rfl, rfl, ?_, ?_, ?_, ?_⟩
  · by_cases h : id ∈ r.activeTasks
    · have hgone : id ∉ r.activeTasks.filter (fun x => !(x == id)) := by
        simp [List.mem_filter]
      simp [stop_streaming, h, hgone]
    · simp [stop_streaming, h]
  · intro h
    simp [stop_streaming, h]
  · by_cases h : id ∈ r.activeTasks <;> simp [stop_streaming, h]
  · by_cases h : id ∈ r.activeTasks <;> simp [stop_streaming, h]

/-- Registry with one live session, used by the C6 witness. -/
def regOne : Registry :=
  ⟨["a"], [], []⟩

/-- C6 witness: the idempotence theorem instantiated at a registry that
does not know the stopped id, with the no-op hypothesis discharged. -/
theorem claim6_witness :
    ("b" ∉ regOne.activeTasks) ∧
    (stop_streaming regOne "b").1 = regOne ∧
    (stop_streaming regOne "b").2 = "stopped" :=
  ⟨by decide, (claim6_stop_idempotent regOne "b").2.2.2.1 (by decide),
   (claim6_stop_idempotent regOne "b").1⟩

/-- C9 counterexample: immediately after an accepted `/start`, the
status query answers `not_found` — the snapshot is created by the
background worker (line 226), not by the start request — and if the
Whisper model fails to load the worker returns early, so the snapshot is
never created at all for that accepted id. -/
theorem claim9_counterexample :
    get_status (start_streaming emptyRegistry "s").1 "s" = StatusResult.notFound ∧
    get_status (workerInitStatus (start_streaming emptyRegistry "s").1 "s" false 0) "s"
      = StatusResult.notFound := by
  decide

/-- C9 amended: the status snapshot is created when the background
worker initialises (asynchronously after the start request) provided the
transcription engine loads — never synchronously on `/start`, and never
if engine loading fails; once created it is returned by the status query
and survives every other registry operation (stop, start, other
sessions' worker initialisation); an id with no snapshot gets the benign
`not_found` result, never an error. -/
theorem claim9_amended_snapshot (r : Registry) (id other q : String) (t0 : ℚ) (ok : Bool)
    (hother : other ≠ id) :
    get_status (workerInitStatus r id true t0) id = StatusResult.snapshot (initSnapshot t0) ∧
    get_status (stop_streaming r q).1 id = get_status r id ∧
    get_status (start_streaming r q).1 id = get_status r id ∧
    get_status (workerInitStatus r other ok t0) id = get_status r id ∧
    (dictGet r.processingStatus id = none → get_status r id = StatusResult.notFound) := by
  refine ⟨?_, ?_, ?_, ?_, ?_⟩
  · simp [get_status, workerInitStatus, dictGet_dictSet_self]
  · by_cases h : q ∈ r.activeTasks <;> simp [get_status, stop_streaming, h]
  · simp [get_status, start_streaming]
  · cases ok with
    | false => simp [workerInitStatus]
    | true =>
        have hid : id ≠ other := fun hk => hother hk.symm
        simp [get_status, workerInitStatus, dictGet_dictSet_other _ _ _ _ hid]
  · intro h
    simp [get_status, h]

/-- C9 amended, witness: instantiated at the empty registry, with both
hypotheses discharged concretely. -/
theorem claim9_witness :
    (("t" : String) ≠ "s" ∧ dictGet emptyRegistry.processingStatus "s" = none) ∧
    (get_status (workerInitStatus emptyRegistry "s" true 0) "s"
        = StatusResult.snapshot (initSnapshot 0) ∧
      get_status emptyRegistry "s" = StatusResult.notFound) :=
  ⟨⟨by decide, by decide⟩,
   (claim9_amended_snapshot emptyRegistry "s" "t" "q" 0 true (by decide)).1,
   (claim9_amended_snapshot emptyRegistry "s" "t" "q" 0 true (by decide)).2.2.2.2 (by decide)⟩

/-- Python float floor-mod `a % b` (for floats: `a - b * floor(a / b)`),
with floats modelled as rationals. -/
def pyMod (a b : ℚ) : ℚ :=
  a - b * ⌊a / b⌋

/-- `hours = int(seconds // 3600)` (line 93). -/
def fmtHours (t : ℚ) : ℤ :=
  ⌊t / 3600⌋

/-- `minutes = int((seconds % 3600) // 60)` (line 94). -/
def fmtMinutes (t : ℚ) : ℤ :=
  ⌊pyMod t 3600 / 60⌋

/-- `secs = seconds % 60` (line 95), before formatting. -/
def fmtSecsRaw (t : ℚ) : ℚ :=
  pyMod t 60

/-- The value printed by a `%.d f` format: the input rounded to the
nearest multiple of `10 ^ (-d)` (exact ties cannot arise from binary
floats, so the tie-breaking direction is immaterial). -/
def roundDec (d : ℕ) (x : ℚ) : ℚ :=
  (round (x * 10 ^ d) : ℤ) / 10 ^ d

/-- The numeric value of the seconds field of `format_time`, which
prints `secs` with `:06.3f` (line 96). -/
def fmtSecsField (t : ℚ) : ℚ :=
  roundDec 3 (fmtSecsRaw t)

/-- Decimal digit character for `n % 10`. -/
def natDigitChar (n : ℕ) : Char :=
  match n % 10 with
  | 0 => '0' | 1 => '1' | 2 => '2' | 3 => '3' | 4 => '4'
  | 5 => '5' | 6 => '6' | 7 => '7' | 8 => '8' | _ => '9'

/-- Decimal rendering of a natural number (fuel-based so that it is
structurally recursive; `fuel = n + 1` always suffices). -/
def natToCharsAux : ℕ → ℕ → List Char → List Char
  | 0, _, acc => acc
  | fuel + 1, n, acc =>
      if n < 10 then natDigitChar n :: acc
      else natToCharsAux fuel (n / 10) (natDigitChar (n % 10) :: acc)

def natToChars (n : ℕ) : List Char :=
  natToCharsAux (n + 1) n []

/-- Zero-pad a digit string on the left to width `w` (the `0d` part of a
Python format spec). -/
def padZero (w : ℕ) (l : List Char) : List Char :=
  List.replicate (w - l.length) '0' ++ l

/-- Rendering of an integer with `%d`. -/
def intChars (z : ℤ) : List Char :=
  if z < 0 then '-' :: natToChars z.natAbs else natToChars z.toNat

/-- Rendering of an integer with `%02d`. -/
def intChars02 (z : ℤ) : List Char :=
  if z < 0 then '-' :: natToChars z.natAbs else padZero 2 (natToChars z.toNat)

/-- Rendering of a rational with a `%0w.df` fixed-point format whose
integer part is padded to `w - d - 1` = 2 digits (both formats the
program uses, `05.2f` and `06.3f`, pad the integer part to 2): round to
`d` decimals, then print integer part, dot, `d` fraction digits. The
negative branch mirrors Python only in sign placement; the program only
ever formats non-negative offsets. -/
def fixedDec (d : ℕ) (x : ℚ) : List Char :=
  if round (x * 10 ^ d) < 0 then
    '-' :: natToChars (round (x * 10 ^ d)).natAbs
  else
    padZero 2 (natToChars ((round (x * 10 ^ d)).toNat / 10 ^ d)) ++
      '.' :: padZero d (natToChars ((round (x * 10 ^ d)).toNat % 10 ^ d))

/-- `format_time` (lines 92-96): the VTT timestamp string
`{hours:01d}:{minutes:02d}:{secs:06.3f}`. -/
def format_time (t : ℚ) : List Char :=
  intChars (fmtHours t) ++ ':' :: intChars02 (fmtMinutes t) ++ ':' :: fixedDec 3 (fmtSecsRaw t)

/-- `create_vtt_cue` (lines 98-99): `"{start} --> {end}\n{text}\n\n"`. -/
def create_vtt_cue (start endTime : ℚ) (text : String) : List Char :=
  format_time start ++ " --> ".data ++ format_time endTime ++ '\n' :: text.data ++ "\n\n".data

/-- The ASS timestamp of line 103:
`{int(t//3600):01d}:{int((t%3600)//60):02d}:{t%60:05.2f}`. -/
def assTimestamp (t : ℚ) : List Char :=
  intChars ⌊t / 3600⌋ ++ ':' :: intChars02 ⌊pyMod t 3600 / 60⌋ ++ ':' :: fixedDec 2 (pyMod t 60)

/-- The comma escaping of line 105: `text.replace(",", "\\N")` — every
comma in the cue text is replaced by the two characters backslash-N (an
ASS line break). -/
def escapeAssText : List Char → List Char
  | [] => []
  | c :: rest => if c = ',' then '\\' :: 'N' :: escapeAssText rest else c :: escapeAssText rest

/-- `create_ass_subtitle` (lines 101-106): the dialogue line
`Dialogue: 0,{start_ass},{end_ass},Default,,0,0,0,,{safe_text}`. -/
def create_ass_subtitle (text : String) (startTime endTime : ℚ) : List Char :=
  "Dialogue: 0,".data ++ assTimestamp startTime ++ ',' :: assTimestamp endTime ++
    ",Default,,0,0,0,,".data ++ escapeAssText text.data

theorem natDigitChar_ne_comma (n : ℕ) : natDigitChar n ≠ ',' := by
  unfold natDigitChar
  split <;> decide

theorem comma_not_mem_natToCharsAux (fuel : ℕ) :
    ∀ (n : ℕ) (acc : List Char), ',' ∉ acc → ',' ∉ natToCharsAux fuel n acc := by
  induction fuel with
  | zero =>
      intro n acc h
      simpa [natToCharsAux] using h
  | succ f ih =>
      intro n acc h
      unfold natToCharsAux
      split
      · intro hmem
        rcases List.mem_cons.mp hmem with hc | hc
        · exact natDigitChar_ne_comma n hc.symm
        · exact h hc
      · refine ih (n / 10) _ ?_
        intro hmem
        rcases List.mem_cons.mp hmem with hc | hc
        · exact natDigitChar_ne_comma (n % 10) hc.symm
        · exact h hc

theorem comma_not_mem_natToChars (n : ℕ) : ',' ∉ natToChars n :=
  comma_not_mem_natToCharsAux (n + 1) n [] (by simp)

theorem comma_not_mem_padZero (w : ℕ) (l : List Char) (h : ',' ∉ l) :
    ',' ∉ padZero w l := by
  intro hmem
  rcases List.mem_append.mp hmem with hc | hc
  · exact absurd (List.eq_of_mem_replicate hc) (by decide)
  · exact h hc

theorem comma_not_mem_intChars (z : ℤ) : ',' ∉ intChars z := by
  unfold intChars
  split
  · intro hmem
    rcases List.mem_cons.mp hmem with hc | hc
    · exact absurd hc (by decide)
    · exact comma_not_mem_natToChars _ hc
  · exact comma_not_mem_natToChars _

theorem comma_not_mem_intChars02 (z : ℤ) : ',' ∉ intChars02 z := by
  unfold intChars02
  split
  · intro hmem
    rcases List.mem_cons.mp hmem with hc | hc
    · exact absurd hc (by decide)
    · exact comma_not_mem_natToChars _ hc
  · exact comma_not_mem_padZero _ _ (comma_not_mem_natToChars _)

theorem comma_not_mem_fixedDec (d : ℕ) (x : ℚ) : ',' ∉ fixedDec d x := by
  unfold fixedDec
  split
  · intro hmem
    rcases List.mem_cons.mp hmem with hc | hc
    · exact absurd hc (by decide)
    · exact comma_not_mem_natToChars _ hc
  · intro hmem
    rcases List.mem_append.mp hmem with hc | hc
    · exact comma_not_mem_padZero _ _ (comma_not_mem_natToChars _) hc
    · rcases List.mem_cons.mp hc with hc2 | hc2
      · exact absurd hc2 (by decide)
      · exact comma_not_mem_padZero _ _ (comma_not_mem_natToChars _) hc2

theorem comma_not_mem_assTimestamp (t : ℚ) : ',' ∉ assTimestamp t := by
  unfold assTimestamp
  intro hmem
  rcases List.mem_append.mp hmem with hc | hc
  · rcases List.mem_append.mp hc with hc2 | hc2
    · exact comma_not_mem_intChars _ hc2
    · rcases List.mem_cons.mp hc2 with hc3 | hc3
      · exact absurd hc3 (by decide)
      · exact comma_not_mem_intChars02 _ hc3
  · rcases List.mem_cons.mp hc with hc2 | hc2
    · exact absurd hc2 (by decide)
    · exact comma_not_mem_fixedDec _ _ hc2

theorem comma_not_mem_escapeAssText (l : List Char) : ',' ∉ escapeAssText l := by
  induction l with
  | nil => simp [escapeAssText]
  | cons c rest ih =>
      unfold escapeAssText
      split
      · intro hmem
        rcases List.mem_cons.mp hmem with hc | hc
        · exact absurd hc (by decide)
        · rcases List.mem_cons.mp hc with hc2 | hc2
          · exact absurd hc2 (by decide)
          · exact ih hc2
      · intro hmem
        rcases List.mem_cons.mp hmem with hc | hc
        · rename_i hne
          exact hne hc.symm
        · exact ih hc

/-- C8: the ASS dialogue line built by `create_ass_subtitle` carries no
comma inside its text field — every comma of the cue text has been
replaced by the escape `\N` (line 105) — and the line therefore has
exactly the 9 structural field-separator commas of the
`Dialogue: 0,start,end,Default,,0,0,0,,text` template, keeping the
comma-separated field structure intact for any cue text and offsets. -/
theorem claim8_ass_escaping (text : String) (s e : ℚ) :
    ',' ∉ escapeAssText text.data ∧
    (create_ass_subtitle text s e).count ',' = 9 ∧
    create_ass_subtitle text s e =
      ("Dialogue: 0,".data ++ assTimestamp s ++ ',' :: assTimestamp e ++
        ",Default,,0,0,0,,".data) ++ escapeAssText text.data := by
  refine ⟨comma_not_mem_escapeAssText _, ?_, by simp [create_ass_subtitle]⟩
  have h1 : (assTimestamp s).count ',' = 0 :=
    List.count_eq_zero.mpr (comma_not_mem_assTimestamp s)
  have h2 : (assTimestamp e).count ',' = 0 :=
    List.count_eq_zero.mpr (comma_not_mem_assTimestamp e)
  have h3 : (escapeAssText text.data).count ',' = 0 :=
    List.count_eq_zero.mpr (comma_not_mem_escapeAssText text.data)
  simp [create_ass_subtitle, List.count_append, List.count_cons, h1, h2, h3]

/-- C8 witness: the escaping theorem instantiated at a cue text that
contains a comma. -/
theorem claim8_witness :
    ',' ∉ escapeAssText ("a,b" : String).data ∧
    (create_ass_subtitle "a,b" 0 5).count ',' = 9 ∧
    create_ass_subtitle "a,b" 0 5 =
      ("Dialogue: 0,".data ++ assTimestamp 0 ++ ',' :: assTimestamp 5 ++
        ",Default,,0,0,0,,".data) ++ escapeAssText ("a,b" : String).data :=
  claim8_ass_escaping "a,b" 0 5

theorem pyMod_nonneg (a b : ℚ) (hb : 0 < b) : 0 ≤ pyMod a b := by
  have h1 : (⌊a / b⌋ : ℚ) ≤ a / b := Int.floor_le _
  have h2 : b * (⌊a / b⌋ : ℚ) ≤ b * (a / b) := mul_le_mul_of_nonneg_left h1 hb.le
  have h3 : b * (a / b) = a := by
    rw [mul_comm]
    exact div_mul_cancel₀ a hb.ne'
  unfold pyMod
  linarith

theorem pyMod_lt (a b : ℚ) (hb : 0 < b) : pyMod a b < b := by
  have h1 : a / b < ⌊a / b⌋ + 1 := Int.lt_floor_add_one _
  have h2 : b * (a / b) < b * ((⌊a / b⌋ : ℚ) + 1) := by
    exact mul_lt_mul_of_pos_left h1 hb
  have h3 : b * (a / b) = a := by
    rw [mul_comm]
    exact div_mul_cancel₀ a hb.ne'
  unfold pyMod
  nlinarith

/-- C10 counterexample: at `t = 59.9996` seconds the raw seconds value
`t % 60 = 59.9996` is printed by `:06.3f` as `60.000` — the rounded
seconds field equals exactly 60 — refuting the claim that the seconds
field is always strictly less than 60. -/
theorem claim10_counterexample :
    fmtSecsField (599996 / 10000 : ℚ) = 60 ∧
    ¬ fmtSecsField (599996 / 10000 : ℚ) < 60 := by
  have hfloor : ⌊(599996 / 10000 : ℚ) / 60⌋ = 0 := by
    rw [Int.floor_eq_iff]
    constructor <;> norm_num
  have hraw : fmtSecsRaw (599996 / 10000 : ℚ) = 599996 / 10000 := by
    unfold fmtSecsRaw pyMod
    rw [hfloor]
    norm_num
  have hround : round ((599996 / 10000 : ℚ) * 10 ^ 3) = 60000 := by
    rw [round_eq, Int.floor_eq_iff]
    constructor <;> norm_num
  have hfield : fmtSecsField (599996 / 10000 : ℚ) = 60 := by
    unfold fmtSecsField roundDec
    rw [hraw, hround]
    norm_num
  exact ⟨hfield, by rw [hfield]; exact lt_irrefl 60⟩

/-- C10 amended: for every non-negative `t`, the hours and minutes
fields of `format_time t` are non-negative, the minutes field is
strictly below 60, the rounded seconds field lies in `[0, 60]` — it can
equal exactly 60 when `t % 60` rounds up at the third decimal, which is
the only deviation from the original claim — and reading the fields back
as `hours*3600 + minutes*60 + seconds` recovers `t` to within `0.001`
(in fact within a half-thousandth). -/
theorem claim10_amended_format_time (t : ℚ) (ht : 0 ≤ t) :
    0 ≤ fmtHours t ∧ 0 ≤ fmtMinutes t ∧ fmtMinutes t < 60 ∧
    0 ≤ fmtSecsField t ∧ fmtSecsField t ≤ 60 ∧
    |((fmtHours t : ℚ) * 3600 + (fmtMinutes t : ℚ) * 60 + fmtSecsField t) - t| ≤ 1 / 1000 := by
  have hm0 : 0 ≤ pyMod t 3600 := pyMod_nonneg t 3600 (by norm_num)
  have hm1 : pyMod t 3600 < 3600 := pyMod_lt t 3600 (by norm_num)
  have hs0 : 0 ≤ pyMod t 60 := pyMod_nonneg t 60 (by norm_num)
  have hs1 : pyMod t 60 < 60 := pyMod_lt t 60 (by norm_num)
  have hround0 : (0 : ℤ) ≤ round (pyMod t 60 * 10 ^ 3) := by
    rw [round_eq]
    refine Int.le_floor.mpr ?_
    push_cast
    nlinarith
  have hround1 : round (pyMod t 60 * 10 ^ 3) ≤ 60000 := by
    rw [round_eq]
    have : ⌊pyMod t 60 * 10 ^ 3 + 1 / 2⌋ < 60001 := by
      refine Int.floor_lt.mpr ?_
      push_cast
      nlinarith
    omega
  refine ⟨?_, ?_, ?_, ?_, ?_, ?_⟩
  · exact Int.le_floor.mpr (by positivity)
  · exact Int.le_floor.mpr (by positivity)
  · refine Int.floor_lt.mpr ?_
    rw [div_lt_iff₀ (by norm_num : (0 : ℚ) < 60)]
    push_cast
    linarith
  · unfold fmtSecsField roundDec fmtSecsRaw
    have : ((round (pyMod t 60 * 10 ^ 3) : ℤ) : ℚ) ≥ 0 := by exact_mod_cast hround0
    positivity
  · unfold fmtSecsField roundDec fmtSecsRaw
    rw [div_le_iff₀ (by positivity : (0 : ℚ) < 10 ^ 3)]
    have : ((round (pyMod t 60 * 10 ^ 3) : ℤ) : ℚ) ≤ 60000 := by exact_mod_cast hround1
    linarith [this]
  · have hmin : fmtMinutes t = ⌊t / 60⌋ - 60 * fmtHours t := by
      unfold fmtMinutes fmtHours pyMod
      have heq : (t - 3600 * (⌊t / 3600⌋ : ℚ)) / 60 = t / 60 - ((60 * ⌊t / 3600⌋ : ℤ) : ℚ) := by
        push_cast
        ring
      rw [heq, Int.floor_sub_int]
    have hA : (fmtHours t : ℚ) * 3600 + (fmtMinutes t : ℚ) * 60 + fmtSecsField t - t
        = fmtSecsField t - fmtSecsRaw t := by
      rw [hmin]
      unfold fmtSecsRaw pyMod fmtHours
      push_cast
      ring
    rw [hA]
    have hdist : |fmtSecsField t - fmtSecsRaw t| ≤ 1 / 2000 := by
      unfold fmtSecsField roundDec
      have habs := abs_sub_round (fmtSecsRaw t * 10 ^ 3)
      have hrw : (round (fmtSecsRaw t * 10 ^ 3) : ℚ) / 10 ^ 3 - fmtSecsRaw t
          = (fmtSecsRaw t * 10 ^ 3 - round (fmtSecsRaw t * 10 ^ 3)) * (-1 / 10 ^ 3) := by
        ring
      rw [hrw, abs_mul]
      have h1 : |(-1 : ℚ) / 10 ^ 3| = 1 / 1000 := by norm_num
      rw [h1]
      nlinarith [abs_nonneg (fmtSecsRaw t * 10 ^ 3 - (round (fmtSecsRaw t * 10 ^ 3) : ℚ))]
    linarith

/-- C10 amended, witness: instantiated at `t = 61.25` seconds. -/
theorem claim10_witness :
    (0 : ℚ) ≤ 245 / 4 ∧
    (0 ≤ fmtHours (245 / 4 : ℚ) ∧ 0 ≤ fmtMinutes (245 / 4 : ℚ) ∧
      fmtMinutes (245 / 4 : ℚ) < 60 ∧
      0 ≤ fmtSecsField (245 / 4 : ℚ) ∧ fmtSecsField (245 / 4 : ℚ) ≤ 60 ∧
      |((fmtHours (245 / 4 : ℚ) : ℚ) * 3600 + (fmtMinutes (245 / 4 : ℚ) : ℚ) * 60 +
          fmtSecsField (245 / 4 : ℚ)) - 245 / 4| ≤ 1 / 1000) :=
  ⟨by norm_num, claim10_amended_format_time (245 / 4) (by norm_num)⟩
